import Mathlib

/-!
Shallow embedding of the Macronata backend's escrow/billing ledger
(`src/macronata_backend/main.py`): the wallet table, session table and
transaction log, and the operations `control_session` (actions `start` and
`end`), `confirm_deposit_sim` and `/withdraw`.

Conventions of the embedding:
* database rows are records; the wallet and session tables are maps from
  id strings to optional rows; the transaction log is an append-only list;
* Python `float` arithmetic on durations and rates is modelled exactly over
  `ℚ`; `int(x)` is truncation toward zero (`pyInt`);
* a supabase `.single()` read on a missing row raises an exception, which the
  endpoint's `except` clause turns into an HTTP 500: modelled as
  `Err.ServerError`;
* HTTP error codes map to `Err`: 404 → `NotFound`, 402 → `InsufficientFunds`,
  400/409 state errors → `InvalidState`;
* an operation that fails returns `Except.error` and, being a pure function
  on the whole database state, leaves the state with the caller unchanged.
-/

namespace Macronata

/-- Error taxonomy of the ledger endpoints. -/
inductive Err where
  | NotFound
  | InsufficientFunds
  | InvalidState
  | ServerError
deriving DecidableEq, Repr

/-- Session lifecycle status values written by the code:
`"scheduled"`, `"live"`, `"completed"`. -/
inductive SessionStatus where
  | scheduled
  | live
  | completed
deriving DecidableEq, Repr

/-- A row of the `wallets` table. `locked_balance_cents` is optional because
the code reads it with `.get('locked_balance_cents', default)` and fresh
wallets are inserted with only `balance_cents`. -/
structure Wallet where
  balance_cents : Int
  locked_balance_cents : Option Int
deriving DecidableEq, Repr

/-- A row of the `sessions` table. Times are rational timestamps in seconds. -/
structure Session where
  learner_id : String
  tutor_id : String
  business_id : Option String
  status : SessionStatus
  hourly_rate_cents : Int
  max_cost_cap_cents : Int
  start_time : Option ℚ
  end_time : Option ℚ
  final_cost_cents : Option Int
deriving DecidableEq, Repr

/-- A row of the append-only `wallet_transactions` log. -/
structure Txn where
  wallet_id : String
  amount_cents : Int
  transaction_type : String
  description : String
deriving DecidableEq, Repr

/-- The persistent state touched by the ledger. -/
structure DB where
  wallets : String → Option Wallet
  sessions : String → Option Session
  wallet_transactions : List Txn

/-- Overwrite (or insert) one wallet row. -/
def DB.setWallet (db : DB) (uid : String) (w : Wallet) : DB :=
  { db with wallets := fun u => if u = uid then some w else db.wallets u }

/-- Overwrite one session row. -/
def DB.setSession (db : DB) (sid : String) (s : Session) : DB :=
  { db with sessions := fun i => if i = sid then some s else db.sessions i }

/-- Append rows to the transaction log. -/
def DB.appendTxns (db : DB) (ts : List Txn) : DB :=
  { db with wallet_transactions := db.wallet_transactions ++ ts }

/-- Python `int(x)`: truncation toward zero, on the exact rational value. -/
def pyInt (q : ℚ) : Int := if q < 0 then ⌈q⌉ else ⌊q⌋

/-- The billing arithmetic of `control_session`'s `end` branch
(`main.py` lines 367-378): `duration = now - t0`,
`rate_per_sec = hourly_rate_cents / 3600.0`,
`final_cost = int(duration * rate_per_sec)`, then the safety clamps
(first down to the cap, then up to 0). -/
def finalCostOf (session : Session) (t0 now : ℚ) : Int :=
  let duration_seconds : ℚ := now - t0
  let rate_per_sec : ℚ := (session.hourly_rate_cents : ℚ) / 3600
  let fc0 : Int := pyInt (duration_seconds * rate_per_sec)
  let fc1 : Int := if fc0 > session.max_cost_cap_cents then session.max_cost_cap_cents else fc0
  if fc1 < 0 then 0 else fc1

/-- `refund_amt = locked_amt - final_cost` (`main.py` line 380). -/
def refundOf (session : Session) (t0 now : ℚ) : Int :=
  session.max_cost_cap_cents - finalCostOf session t0 now

/-- `commission_rate = 0.15`, overridden to `0.0` when the session has a
`business_id` (`main.py` lines 393-397). The float literal `0.15` is
modelled as the exact rational `15 / 100`. -/
def commissionRateOf (session : Session) : ℚ :=
  if session.business_id.isSome then 0 else 15 / 100

/-- `platform_fee = int(final_cost * commission_rate)` (`main.py` line 399). -/
def platformFeeOf (session : Session) (t0 now : ℚ) : Int :=
  pyInt ((finalCostOf session t0 now : ℚ) * commissionRateOf session)

/-- `tutor_pay = final_cost - platform_fee` (`main.py` line 400). -/
def tutorPayOf (session : Session) (t0 now : ℚ) : Int :=
  finalCostOf session t0 now - platformFeeOf session t0 now

/-- `pay_recipient_id = session.get('business_id') or session['tutor_id']`
(`main.py` line 402). -/
def payRecipientOf (session : Session) : String :=
  session.business_id.getD session.tutor_id

/-- `control_session` with `action == "start"` (`main.py` lines 333-360):
fetch the session (404 if absent), read the learner's wallet
(`.single()` raises → 500 if absent), fail 402 if
`balance_cents < max_cost_cap_cents`, otherwise move the cap from balance
to locked and set the session `live` with `start_time = now`.
The code performs no check of the session's current status. -/
def startAction (db : DB) (sid : String) (now : ℚ) : Except Err (DB × Int) :=
  match db.sessions sid with
  | none => .error .NotFound
  | some session =>
    let learner_id := session.learner_id
    let cost_cap := session.max_cost_cap_cents
    match db.wallets learner_id with
    | none => .error .ServerError
    | some learner_wallet =>
      if learner_wallet.balance_cents < cost_cap then
        .error .InsufficientFunds
      else
        let new_bal := learner_wallet.balance_cents - cost_cap
        let new_locked := learner_wallet.locked_balance_cents.getD 0 + cost_cap
        let db₁ := db.setWallet learner_id ⟨new_bal, some new_locked⟩
        let db₂ := db₁.setSession sid
          { session with status := .live, start_time := some now }
        .ok (db₂, cost_cap)

/-- The state written by a successful `end` (`main.py` lines 382-427):
refund the learner (`locked_balance_cents` read with
`.get('locked_balance_cents', locked_amt)`, decreased by `locked_amt`;
`balance_cents` increased by the refund), credit the payee (a zero wallet is
inserted first when the row is absent), mark the session completed, and
append the `payment` and `earning` log rows. -/
def endApply (db : DB) (sid : String) (session : Session) (l_wallet : Wallet)
    (t0 now : ℚ) : DB :=
  let locked_amt := session.max_cost_cap_cents
  let db₁ := db.setWallet session.learner_id
    ⟨l_wallet.balance_cents + refundOf session t0 now,
     some (l_wallet.locked_balance_cents.getD locked_amt - locked_amt)⟩
  let tRead := db₁.wallets (payRecipientOf session)
  let t_bal : Int := match tRead with | none => 0 | some w => w.balance_cents
  let t_locked : Option Int :=
    match tRead with | none => none | some w => w.locked_balance_cents
  let db₂ := db₁.setWallet (payRecipientOf session)
    ⟨t_bal + tutorPayOf session t0 now, t_locked⟩
  let db₃ := db₂.setSession sid
    { session with status := .completed, end_time := some now,
                   final_cost_cents := some (finalCostOf session t0 now) }
  db₃.appendTxns
    [⟨session.learner_id, -finalCostOf session t0 now, "payment", "Session Cost"⟩,
     ⟨payRecipientOf session, tutorPayOf session t0 now, "earning", "Session Earnings"⟩]

/-- `control_session` with `action == "end"` (`main.py` lines 362-429):
fetch the session (404 if absent), fail 400 (`InvalidState`) if `start_time`
was never set, read the learner's wallet (`.single()` raises → 500 if
absent), then apply the settlement writes and return the duration and final
cost. The code performs no check that the status is `live`: only
`start_time` gates the branch. -/
def endAction (db : DB) (sid : String) (now : ℚ) : Except Err (DB × ℚ × Int) :=
  match db.sessions sid with
  | none => .error .NotFound
  | some session =>
    match session.start_time with
    | none => .error .InvalidState
    | some t0 =>
      match db.wallets session.learner_id with
      | none => .error .ServerError
      | some l_wallet =>
        .ok (endApply db sid session l_wallet t0 now, now - t0,
             finalCostOf session t0 now)

/-- `confirm_deposit_sim` (`main.py` lines 281-291): read the caller's wallet
(`.single()` raises → 500 if absent), set
`balance_cents := balance_cents + amount_in_cents` with no validation of the
amount, append a `deposit` log row carrying the same signed amount, and
return the new balance. -/
def confirm_deposit_sim (db : DB) (uid : String) (amount_in_cents : Int) :
    Except Err (DB × Int) :=
  match db.wallets uid with
  | none => .error .ServerError
  | some current =>
    let new_bal := current.balance_cents + amount_in_cents
    let db₁ := db.setWallet uid { current with balance_cents := new_bal }
    let db₂ := db₁.appendTxns
      [⟨uid, amount_in_cents, "deposit", "Top Up via Yoco (Simulated)"⟩]
    .ok (db₂, new_bal)

/-- Modelled from the spec: the `POST /withdraw` endpoint is absent from the
backend source (`app_ui.py` calls it, `main.py` does not define it). From the
spec, §4.1 and §6: fails with `InsufficientFunds` (HTTP 402) if
`available_cents < amount`; otherwise debits `available_cents` and logs a
`withdrawal` transaction (a debit, so the signed log amount is negative),
returning the new balance. The wallet is created lazily at zero if absent
(spec §3). -/
def withdraw (db : DB) (uid : String) (amount : Int) : Except Err (DB × Int) :=
  let w := (db.wallets uid).getD ⟨0, none⟩
  if w.balance_cents < amount then
    .error .InsufficientFunds
  else
    let new_bal := w.balance_cents - amount
    let db₁ := db.setWallet uid { w with balance_cents := new_bal }
    let db₂ := db₁.appendTxns [⟨uid, -amount, "withdrawal", "Withdrawal Request"⟩]
    .ok (db₂, new_bal)

/-! ## Helper lemmas -/

lemma pyInt_of_nonneg {q : ℚ} (h : 0 ≤ q) : pyInt q = ⌊q⌋ := by
  rw [pyInt, if_neg (not_lt.mpr h)]

lemma finalCostOf_nonneg (s : Session) (t0 now : ℚ) : 0 ≤ finalCostOf s t0 now := by
  simp only [finalCostOf]
  split_ifs <;> omega

lemma finalCostOf_le_cap (s : Session) (t0 now : ℚ)
    (hcap : 0 ≤ s.max_cost_cap_cents) :
    finalCostOf s t0 now ≤ s.max_cost_cap_cents := by
  simp only [finalCostOf]
  split_ifs <;> omega

lemma finalCostOf_eq_clamp (s : Session) (t0 now : ℚ)
    (hcap : 0 ≤ s.max_cost_cap_cents) :
    finalCostOf s t0 now =
      min s.max_cost_cap_cents
        (max 0 ⌊(now - t0) * (s.hourly_rate_cents : ℚ) / 3600⌋) := by
  simp only [finalCostOf]
  rw [mul_div_assoc]
  set x : ℚ := (now - t0) * ((s.hourly_rate_cents : ℚ) / 3600) with hx
  rcases le_or_lt 0 x with hx0 | hx0
  · rw [pyInt_of_nonneg hx0]
    have h0 : 0 ≤ ⌊x⌋ := Int.floor_nonneg.mpr hx0
    split_ifs <;> omega
  · have hceil : ⌈x⌉ ≤ 0 := Int.ceil_le.mpr (by exact_mod_cast hx0.le)
    have hfloor : ⌊x⌋ ≤ 0 := Int.floor_nonpos hx0.le
    rw [pyInt, if_pos hx0]
    split_ifs <;> omega

lemma endApply_txns (db : DB) (sid : String) (s : Session) (w : Wallet)
    (t0 now : ℚ) :
    (endApply db sid s w t0 now).wallet_transactions =
      db.wallet_transactions ++
        [⟨s.learner_id, -finalCostOf s t0 now, "payment", "Session Cost"⟩,
         ⟨payRecipientOf s, tutorPayOf s t0 now, "earning", "Session Earnings"⟩] :=
  rfl

lemma endApply_session_self (db : DB) (sid : String) (s : Session) (w : Wallet)
    (t0 now : ℚ) :
    (endApply db sid s w t0 now).sessions sid =
      some { s with status := .completed, end_time := some now,
                    final_cost_cents := some (finalCostOf s t0 now) } := by
  simp [endApply, DB.appendTxns, DB.setSession, DB.setWallet]

lemma endApply_learner_wallet (db : DB) (sid : String) (s : Session) (w : Wallet)
    (t0 now : ℚ) (hne : payRecipientOf s ≠ s.learner_id) :
    (endApply db sid s w t0 now).wallets s.learner_id =
      some ⟨w.balance_cents + refundOf s t0 now,
            some (w.locked_balance_cents.getD s.max_cost_cap_cents -
                  s.max_cost_cap_cents)⟩ := by
  simp [endApply, DB.appendTxns, DB.setSession, DB.setWallet, Ne.symm hne]

/-! ## Concrete states used by the bug exhibits and witnesses -/

/-- A scheduled one-hour session between learner `alice` and tutor `bob`:
`hourly_rate_cents = 20000`, `max_cost_cap_cents = 20000`, no business. -/
def sessScheduled : Session :=
  ⟨"alice", "bob", none, .scheduled, 20000, 20000, none, none, none⟩

/-- `sessScheduled` after a successful start at time 0. -/
def sessLive : Session :=
  ⟨"alice", "bob", none, .live, 20000, 20000, some 0, none, none⟩

/-- `sessLive` after a successful end at time 1800 (`final_cost = 10000`). -/
def sessCompleted : Session :=
  ⟨"alice", "bob", none, .completed, 20000, 20000, some 0, some 1800, some 10000⟩

/-- Scenario A state: `alice` holds 50000 cents, `bob` a fresh zero wallet,
and session `s1` is scheduled. -/
def dbScheduled : DB :=
  ⟨fun u => if u = "alice" then some ⟨50000, some 0⟩
            else if u = "bob" then some ⟨0, none⟩ else none,
   fun i => if i = "s1" then some sessScheduled else none,
   []⟩

/-- The state after a successful `start` on `dbScheduled`:
`alice` holds (30000, locked 20000) and `s1` is live. -/
def dbLive : DB :=
  ⟨fun u => if u = "alice" then some ⟨30000, some 20000⟩
            else if u = "bob" then some ⟨0, none⟩ else none,
   fun i => if i = "s1" then some sessLive else none,
   []⟩

/-- The state after a successful `end` on `dbLive` at time 1800:
`alice` refunded to (40000, locked 0), `bob` credited 8500, `s1` completed. -/
def dbCompleted : DB :=
  ⟨fun u => if u = "alice" then some ⟨40000, some 0⟩
            else if u = "bob" then some ⟨8500, none⟩ else none,
   fun i => if i = "s1" then some sessCompleted else none,
   []⟩

/-- A zero-initialized wallet state for user `carol`, as created by
registration (`main.py` line 180: only `balance_cents = 0` is inserted). -/
def dbZeroWallet : DB :=
  ⟨fun u => if u = "carol" then some ⟨0, none⟩ else none,
   fun _ => none,
   []⟩

/-! ## Claims -/

/-- **C1** — code bug exhibit. The claim says that `endSession` on a session
whose status is not `live` (in particular already `completed`) fails with
`InvalidState` and leaves every wallet unchanged. The code only checks that
`start_time` is set, never the status: on `dbCompleted` (session `s1`
completed, wallets already settled) a second `end` call at time 1800
succeeds again, charges the learner's locked balance a second time
(driving it to −20000) and credits the payee a second time (8500 → 17000).
-/
theorem c1_endSession_on_completed_session_reruns_settlement :
    ∃ db' d fc, endAction dbCompleted "s1" 1800 = .ok (db', d, fc)
      ∧ d = 1800 ∧ fc = 10000
      ∧ db'.wallets "alice" = some ⟨50000, some (-20000)⟩
      ∧ db'.wallets "bob" = some ⟨17000, none⟩
      ∧ db'.wallet_transactions =
          [⟨"alice", -10000, "payment", "Session Cost"⟩,
           ⟨"bob", 8500, "earning", "Session Earnings"⟩] := by
  refine ⟨_, _, _, rfl, by norm_num, ?_, ?_, ?_, ?_⟩ <;>
    · simp only [endApply, refundOf, tutorPayOf, platformFeeOf, commissionRateOf,
        finalCostOf, payRecipientOf, pyInt, sessCompleted, dbCompleted,
        DB.setWallet, DB.setSession, DB.appendTxns]
      norm_num +decide [Int.floor_eq_iff]

/-- **C2** — code bug exhibit. The claim says `available_cents ≥ 0` and
`locked_cents ≥ 0` in every state reachable by the ledger operations from
zero-initialized wallets. `confirm_deposit_sim` accepts any signed amount:
a single deposit of −1 cent on a fresh zero wallet drives
`available_cents` to −1 < 0. -/
theorem c2_negative_deposit_breaks_nonneg_invariant :
    ∃ db' bal, confirm_deposit_sim dbZeroWallet "carol" (-1) = .ok (db', bal)
      ∧ bal = -1
      ∧ db'.wallets "carol" = some ⟨-1, none⟩
      ∧ db'.wallet_transactions =
          [⟨"carol", -1, "deposit", "Top Up via Yoco (Simulated)"⟩]
      ∧ (-1 : Int) < 0 := by
  refine ⟨_, _, rfl, by decide, by decide, by decide, by decide⟩

/-- **C3** — code bug exhibit. The claim says `startSession` succeeds only
when the session's status is `scheduled`, and fails with `InvalidState` on a
`live` or `completed` session. The code never reads the status: on `dbLive`
(session `s1` already live, cap already locked once) a second `start` call
succeeds and locks the 20000-cent cap a second time, leaving `alice` at
(10000, locked 40000). -/
theorem c3_startSession_on_live_session_locks_again :
    ∃ db' c, startAction dbLive "s1" 5 = .ok (db', c)
      ∧ c = 20000
      ∧ db'.wallets "alice" = some ⟨10000, some 40000⟩
      ∧ db'.sessions "s1" =
          some { sessLive with status := .live, start_time := some 5 } := by
  refine ⟨_, _, rfl, by decide, by decide, by decide⟩

/-- A live session with `hourly_rate_cents = 3600` (1 cent per second),
cap 20000, no business payee, started at time 0. Ten seconds of billing give
`final_cost = 10`, whose 15 % commission exercises the truncation. -/
def sessFee : Session := ⟨"alice", "bob", none, .live, 3600, 20000, some 0, none, none⟩

/-- `sessFee` with a business payee `biz` instead. -/
def sessBiz : Session := ⟨"alice", "bob", some "biz", .live, 3600, 20000, some 0, none, none⟩

/-- **C7** — counterexample to the claim as stated. At `final_cost = 10`
with no business payee, the code computes
`platform_fee = int(10 * 0.15) = int(1.5) = 1` (truncation), while the
claim's `round(final_cost * 0.15) = round(1.5) = 2`; the two differ. -/
theorem c7_commission_not_round_counterexample :
    finalCostOf sessFee 0 10 = 10
    ∧ sessFee.business_id = none
    ∧ platformFeeOf sessFee 0 10 = 1
    ∧ round (((10 : ℤ) : ℚ) * (15 / 100)) = 2
    ∧ platformFeeOf sessFee 0 10 ≠
        round ((finalCostOf sessFee 0 10 : ℚ) * (15 / 100)) := by
  have h10 : finalCostOf sessFee 0 10 = 10 := by
    simp only [finalCostOf, sessFee, pyInt]
    norm_num +decide [Int.floor_eq_iff]
  have hfee : platformFeeOf sessFee 0 10 = 1 := by
    simp only [platformFeeOf]
    rw [h10]
    norm_num +decide [commissionRateOf, sessFee, pyInt, Int.floor_eq_iff]
  have hround : round (((10 : ℤ) : ℚ) * (15 / 100)) = 2 := by
    norm_num [round_eq, Int.floor_eq_iff]
  refine ⟨h10, rfl, hfee, hround, ?_⟩
  rw [hfee, h10, hround]
  decide

/-- **C7** (amended): at settlement, a session with `business_id` set pays
the business with zero commission (`payee_credit = final_cost`); a session
without one pays the tutor with commission
`floor(final_cost * 0.15)` — truncation (`int(...)`), not round-to-nearest
as the claim stated. -/
theorem c7_commission_rule_truncation (s : Session) (t0 now : ℚ) :
    (∀ b, s.business_id = some b →
        platformFeeOf s t0 now = 0 ∧ payRecipientOf s = b
          ∧ tutorPayOf s t0 now = finalCostOf s t0 now)
    ∧ (s.business_id = none →
        payRecipientOf s = s.tutor_id
          ∧ platformFeeOf s t0 now =
              ⌊(finalCostOf s t0 now : ℚ) * (15 / 100)⌋) := by
  constructor
  · intro b hb
    have hfee : platformFeeOf s t0 now = 0 := by
      simp [platformFeeOf, commissionRateOf, hb, pyInt]
    exact ⟨hfee, by simp [payRecipientOf, hb], by simp [tutorPayOf, hfee]⟩
  · intro hb
    refine ⟨by simp [payRecipientOf, hb], ?_⟩
    have hnn : (0 : ℚ) ≤ (finalCostOf s t0 now : ℚ) * (15 / 100) :=
      mul_nonneg (by exact_mod_cast finalCostOf_nonneg s t0 now) (by norm_num)
    simp [platformFeeOf, commissionRateOf, hb, pyInt_of_nonneg hnn]

/-- Witness for the amended C7 at concrete inputs: the business session pays
`biz` the full 10 cents, the plain session pays `bob` with the truncated fee.
-/
theorem c7_commission_rule_truncation_witness :
    platformFeeOf sessBiz 0 10 = 0 ∧ payRecipientOf sessBiz = "biz"
      ∧ tutorPayOf sessBiz 0 10 = finalCostOf sessBiz 0 10
      ∧ payRecipientOf sessFee = "bob"
      ∧ platformFeeOf sessFee 0 10 =
          ⌊(finalCostOf sessFee 0 10 : ℚ) * (15 / 100)⌋ := by
  obtain ⟨h1, -⟩ := c7_commission_rule_truncation sessBiz 0 10
  obtain ⟨-, h4⟩ := c7_commission_rule_truncation sessFee 0 10
  obtain ⟨a, b, c⟩ := h1 "biz" rfl
  obtain ⟨d, e⟩ := h4 rfl
  exact ⟨a, b, c, d, e⟩

/-- **C4** — confirmed. For a session `sid` present in the store whose
learner has a wallet `w`: `start` fails with `InsufficientFunds` exactly
when `w.balance_cents < max_cost_cap_cents` (and then, being a pure
function returning only the error, mutates no wallet or session state);
otherwise it succeeds, moves exactly the cap from the learner's available
balance to the locked balance, marks the session `live` with
`start_time = now`, leaves every other wallet untouched and appends no
transaction row. -/
theorem c4_startSession_insufficient_funds_iff (db : DB) (sid : String)
    (now : ℚ) (s : Session) (w : Wallet)
    (hs : db.sessions sid = some s)
    (hw : db.wallets s.learner_id = some w) :
    (startAction db sid now = .error .InsufficientFunds ↔
       w.balance_cents < s.max_cost_cap_cents)
    ∧ (¬ w.balance_cents < s.max_cost_cap_cents →
        ∃ db', startAction db sid now = .ok (db', s.max_cost_cap_cents)
          ∧ db'.wallets s.learner_id =
              some ⟨w.balance_cents - s.max_cost_cap_cents,
                    some (w.locked_balance_cents.getD 0 + s.max_cost_cap_cents)⟩
          ∧ db'.sessions sid =
              some { s with status := .live, start_time := some now }
          ∧ (∀ u, u ≠ s.learner_id → db'.wallets u = db.wallets u)
          ∧ db'.wallet_transactions = db.wallet_transactions) := by
  simp only [startAction, hs, hw]
  by_cases h : w.balance_cents < s.max_cost_cap_cents
  · rw [if_pos h]
    exact ⟨⟨fun _ => h, fun _ => rfl⟩, fun h' => absurd h h'⟩
  · rw [if_neg h]
    refine ⟨⟨(fun hcontra => by cases hcontra), fun h' => absurd h' h⟩, fun _ => ?_⟩
    refine ⟨_, rfl, ?_, ?_, ?_, rfl⟩
    · simp [DB.setSession, DB.setWallet]
    · simp [DB.setSession, DB.setWallet]
    · intro u hu
      simp [DB.setSession, DB.setWallet, hu]

/-- Witness for C4 at Scenario A: balance 50000, cap 20000 → success with
available 30000 and locked 20000 (and, per Scenario C logic, the guard is
the strict comparison discharged here concretely). -/
theorem c4_startSession_insufficient_funds_iff_witness :
    ∃ db', startAction dbScheduled "s1" 0 = .ok (db', 20000)
      ∧ db'.wallets "alice" = some ⟨30000, some 20000⟩
      ∧ db'.sessions "s1" =
          some { sessScheduled with status := .live, start_time := some 0 }
      ∧ (∀ u, u ≠ "alice" → db'.wallets u = dbScheduled.wallets u)
      ∧ db'.wallet_transactions = dbScheduled.wallet_transactions := by
  have h := (c4_startSession_insufficient_funds_iff dbScheduled "s1" 0
      sessScheduled ⟨50000, some 0⟩ rfl rfl).2 (by decide)
  obtain ⟨db', h1, h2, h3, h4, h5⟩ := h
  exact ⟨db', h1, h2, h3, h4, h5⟩

/-- **C9** — confirmed against the spec-modelled `withdraw` (the endpoint is
absent from the backend source; only the UI calls it). For a user with
wallet `w`: the call fails with `InsufficientFunds` (HTTP 402) exactly when
`available_cents < amount`; otherwise it debits `available_cents` by
`amount`, appends a `withdrawal` transaction row, and returns the new
balance. -/
theorem c9_withdraw_guard_and_debit (db : DB) (uid : String) (amount : Int)
    (w : Wallet) (hw : db.wallets uid = some w) :
    (withdraw db uid amount = .error .InsufficientFunds ↔
       w.balance_cents < amount)
    ∧ (¬ w.balance_cents < amount →
        ∃ db', withdraw db uid amount = .ok (db', w.balance_cents - amount)
          ∧ db'.wallets uid = some { w with balance_cents := w.balance_cents - amount }
          ∧ db'.wallet_transactions = db.wallet_transactions ++
              [⟨uid, -amount, "withdrawal", "Withdrawal Request"⟩]) := by
  simp only [withdraw, hw, Option.getD_some]
  by_cases h : w.balance_cents < amount
  · rw [if_pos h]
    exact ⟨⟨fun _ => h, fun _ => rfl⟩, fun h' => absurd h h'⟩
  · rw [if_neg h]
    refine ⟨⟨(fun hcontra => by cases hcontra), fun h' => absurd h' h⟩, fun _ => ?_⟩
    refine ⟨_, rfl, ?_, rfl⟩
    simp [DB.appendTxns, DB.setWallet]

/-- Witness for C9: from a 50000-cent balance, withdrawing 20000 succeeds
with new balance 30000 and a logged `withdrawal` row. -/
theorem c9_withdraw_guard_and_debit_witness :
    ∃ db', withdraw dbScheduled "alice" 20000 = .ok (db', 30000)
      ∧ db'.wallets "alice" = some ⟨30000, some 0⟩
      ∧ db'.wallet_transactions =
          [⟨"alice", -20000, "withdrawal", "Withdrawal Request"⟩] := by
  have h := (c9_withdraw_guard_and_debit dbScheduled "alice" 20000
      ⟨50000, some 0⟩ rfl).2 (by decide)
  obtain ⟨db', h1, h2, h3⟩ := h
  exact ⟨db', h1, h2, h3⟩

/-- **C10** — confirmed. `confirm_deposit_sim` validates nothing: for every
signed integer amount (zero and negatives included) it sets the balance to
`balance_cents + amount`, appends a `deposit` row carrying that same signed
amount, and returns the new balance; a negative amount strictly decreases
the balance with no insufficiency check. -/
theorem c10_deposit_accepts_any_signed_amount (db : DB) (uid : String)
    (amount : Int) (w : Wallet) (hw : db.wallets uid = some w) :
    ∃ db', confirm_deposit_sim db uid amount = .ok (db', w.balance_cents + amount)
      ∧ db'.wallets uid = some { w with balance_cents := w.balance_cents + amount }
      ∧ db'.wallet_transactions = db.wallet_transactions ++
          [⟨uid, amount, "deposit", "Top Up via Yoco (Simulated)"⟩]
      ∧ (amount < 0 → w.balance_cents + amount < w.balance_cents) := by
  simp only [confirm_deposit_sim, hw]
  refine ⟨_, rfl, ?_, ?_, fun h => by omega⟩
  · simp [DB.appendTxns, DB.setWallet]
  · simp [DB.appendTxns, DB.setWallet]

/-- Witness for C10: depositing −7 on a 50000-cent balance yields 49993 and
logs the signed amount, with no validation. -/
theorem c10_deposit_accepts_any_signed_amount_witness :
    ∃ db', confirm_deposit_sim dbScheduled "alice" (-7) = .ok (db', 49993)
      ∧ db'.wallets "alice" = some ⟨49993, some 0⟩
      ∧ db'.wallet_transactions =
          [⟨"alice", -7, "deposit", "Top Up via Yoco (Simulated)"⟩]
      ∧ ((-7 : Int) < 0 → (49993 : Int) < 50000) := by
  have h := c10_deposit_accepts_any_signed_amount dbScheduled "alice" (-7)
      ⟨50000, some 0⟩ rfl
  obtain ⟨db', h1, h2, h3, h4⟩ := h
  exact ⟨db', h1, h2, h3, fun hn => h4 hn⟩

/-- **C5** — confirmed (for the nonnegative caps the booking flow creates;
float arithmetic is modelled exactly over ℚ). A successful `end` returns
`duration = now - start_time` and
`final_cost = floor(duration * hourly_rate_cents / 3600)` clamped to
`[0, max_cost_cap_cents]` (the code truncates toward zero before clamping,
which coincides with floor-then-clamp), records it in `final_cost_cents`,
and in particular `final_cost ≤ max_cost_cap_cents` for every duration. -/
theorem c5_final_cost_formula_and_cap (db : DB) (sid : String) (now t0 : ℚ)
    (s : Session) (db' : DB) (d : ℚ) (fc : Int)
    (hs : db.sessions sid = some s) (ht : s.start_time = some t0)
    (hcap : 0 ≤ s.max_cost_cap_cents)
    (h : endAction db sid now = .ok (db', d, fc)) :
    d = now - t0
    ∧ fc = min s.max_cost_cap_cents
        (max 0 ⌊(now - t0) * (s.hourly_rate_cents : ℚ) / 3600⌋)
    ∧ fc ≤ s.max_cost_cap_cents
    ∧ db'.sessions sid =
        some { s with status := .completed, end_time := some now,
                      final_cost_cents := some fc } := by
  simp only [endAction, hs, ht] at h
  cases hw : db.wallets s.learner_id with
  | none => rw [hw] at h; simp at h
  | some w =>
    rw [hw] at h
    simp only [Except.ok.injEq, Prod.mk.injEq] at h
    obtain ⟨h1, h2, h3⟩ := h
    subst h1 h2 h3
    exact ⟨rfl, finalCostOf_eq_clamp s t0 now hcap,
           finalCostOf_le_cap s t0 now hcap,
           endApply_session_self db sid s w t0 now⟩

/-- Witness for C5 on Scenario B: the live session at rate 20000 ends after
1800 s; the returned cost is the clamped floor and is,
concretely, 10000 ≤ 20000, and it is recorded on the session row. -/
theorem c5_final_cost_formula_and_cap_witness :
    ∃ db' d fc, endAction dbLive "s1" 1800 = .ok (db', d, fc)
      ∧ d = 1800 - 0
      ∧ fc = min (20000 : Int)
          (max 0 ⌊(1800 - (0 : ℚ)) * (((20000 : Int)) : ℚ) / 3600⌋)
      ∧ fc ≤ 20000
      ∧ db'.sessions "s1" =
          some { sessLive with status := .completed, end_time := some 1800,
                               final_cost_cents := some fc }
      ∧ fc = 10000 := by
  obtain ⟨db', d, fc, h⟩ :
      ∃ a b c, endAction dbLive "s1" 1800 = .ok (a, b, c) := ⟨_, _, _, rfl⟩
  have hc := c5_final_cost_formula_and_cap dbLive "s1" 1800 0 sessLive db' d fc
    rfl rfl (by decide) h
  have hfl : (⌊(1800 - (0 : ℚ)) * (((20000 : Int)) : ℚ) / 3600⌋ : Int) = 10000 := by
    norm_num [Int.floor_eq_iff]
  refine ⟨db', d, fc, h, hc.1, hc.2.1, hc.2.2.1, hc.2.2.2, ?_⟩
  rw [hc.2.1]
  show (20000 : Int) ⊓ (0 ⊔ ⌊(1800 - (0 : ℚ)) * (((20000 : Int)) : ℚ) / 3600⌋) = 10000
  rw [hfl]
  omega

/-- **C6** — confirmed. For every session settled by a successful `end`
(learner wallet present with its locked column set, payee distinct from the
learner): `refund + final_cost = max_cost_cap_cents`; the learner's
`locked_cents` decreases by exactly the cap while `available_cents`
increases by exactly the refund; and
`final_cost = payee_credit + commission_retained` exactly — no cents
created or destroyed. -/
theorem c6_settlement_conservation (db : DB) (sid : String) (now t0 : ℚ)
    (s : Session) (w : Wallet) (lk : Int) (db' : DB) (d : ℚ) (fc : Int)
    (hs : db.sessions sid = some s) (ht : s.start_time = some t0)
    (hw : db.wallets s.learner_id = some w)
    (hlk : w.locked_balance_cents = some lk)
    (hne : payRecipientOf s ≠ s.learner_id)
    (h : endAction db sid now = .ok (db', d, fc)) :
    refundOf s t0 now + fc = s.max_cost_cap_cents
    ∧ db'.wallets s.learner_id =
        some ⟨w.balance_cents + refundOf s t0 now,
              some (lk - s.max_cost_cap_cents)⟩
    ∧ fc = tutorPayOf s t0 now + platformFeeOf s t0 now := by
  simp only [endAction, hs, ht, hw] at h
  simp only [Except.ok.injEq, Prod.mk.injEq] at h
  obtain ⟨h1, h2, h3⟩ := h
  subst h1 h2 h3
  refine ⟨by simp only [refundOf]; omega, ?_, by simp only [tutorPayOf]; omega⟩
  have := endApply_learner_wallet db sid s w t0 now hne
  rw [hlk, Option.getD_some] at this
  exact this

/-- Witness for C6 on Scenario B: the settlement refunds 10000 to `alice`
(40000 available, 0 locked) and the 10000-cent cost splits exactly into
8500 for `bob` plus 1500 retained. -/
theorem c6_settlement_conservation_witness :
    ∃ db' d fc, endAction dbLive "s1" 1800 = .ok (db', d, fc)
      ∧ refundOf sessLive 0 1800 + fc = 20000
      ∧ db'.wallets "alice" =
          some ⟨30000 + refundOf sessLive 0 1800, some (20000 - 20000)⟩
      ∧ fc = tutorPayOf sessLive 0 1800 + platformFeeOf sessLive 0 1800
      ∧ refundOf sessLive 0 1800 = 10000
      ∧ tutorPayOf sessLive 0 1800 = 8500
      ∧ platformFeeOf sessLive 0 1800 = 1500 := by
  obtain ⟨db', d, fc, h⟩ :
      ∃ a b c, endAction dbLive "s1" 1800 = .ok (a, b, c) := ⟨_, _, _, rfl⟩
  have hc := c6_settlement_conservation dbLive "s1" 1800 0 sessLive
    ⟨30000, some 20000⟩ 20000 db' d fc rfl rfl rfl rfl (by decide) h
  have hfc : finalCostOf sessLive 0 1800 = 10000 := by
    simp only [finalCostOf, sessLive, pyInt]
    norm_num +decide [Int.floor_eq_iff]
  have hfee : platformFeeOf sessLive 0 1800 = 1500 := by
    simp only [platformFeeOf]
    rw [hfc]
    norm_num +decide [commissionRateOf, sessLive, pyInt, Int.floor_eq_iff]
  refine ⟨db', d, fc, h, hc.1, hc.2.1, hc.2.2, ?_, ?_, hfee⟩
  · simp only [refundOf, hfc]
    decide
  · simp only [tutorPayOf, hfc, hfee]
    decide

/-- **C8** — confirmed. A successful `start` appends no transaction row; a
successful `end` appends exactly two rows — a `payment` debit of
`final_cost` (signed `-final_cost`) against the learner's wallet and an
`earning` credit of the payee's `tutor_pay` against the payee's wallet —
and nothing else (in particular, no row logs the retained commission
against any wallet). -/
theorem c8_transaction_log_rows (db : DB) (sid : String) (now : ℚ) :
    (∀ db' c, startAction db sid now = .ok (db', c) →
       db'.wallet_transactions = db.wallet_transactions)
    ∧ (∀ db' d fc s t0, db.sessions sid = some s → s.start_time = some t0 →
        endAction db sid now = .ok (db', d, fc) →
        db'.wallet_transactions = db.wallet_transactions ++
          [⟨s.learner_id, -fc, "payment", "Session Cost"⟩,
           ⟨payRecipientOf s, tutorPayOf s t0 now, "earning",
            "Session Earnings"⟩]) := by
  constructor
  · intro db' c h
    cases hσ : db.sessions sid with
    | none =>
      simp only [startAction, hσ] at h
      exact Except.noConfusion h
    | some s =>
      simp only [startAction, hσ] at h
      cases hw : db.wallets s.learner_id with
      | none =>
        simp only [hw] at h
        exact Except.noConfusion h
      | some w =>
        simp only [hw] at h
        by_cases hb : w.balance_cents < s.max_cost_cap_cents
        · rw [if_pos hb] at h
          exact Except.noConfusion h
        · rw [if_neg hb] at h
          simp only [Except.ok.injEq, Prod.mk.injEq] at h
          obtain ⟨h1, -⟩ := h
          subst h1
          simp [DB.setSession, DB.setWallet]
  · intro db' d fc s t0 hs ht h
    simp only [endAction, hs, ht] at h
    cases hw : db.wallets s.learner_id with
    | none =>
      simp only [hw] at h
      exact Except.noConfusion h
    | some w =>
      simp only [hw, Except.ok.injEq, Prod.mk.injEq] at h
      obtain ⟨h1, -, h3⟩ := h
      subst h1 h3
      exact endApply_txns db sid s w t0 now

/-- Witness for C8: starting the scheduled session appends nothing; ending
the live session appends exactly the `payment` and `earning` rows. -/
theorem c8_transaction_log_rows_witness :
    ∃ db₁ c, startAction dbScheduled "s1" 0 = .ok (db₁, c)
      ∧ db₁.wallet_transactions = dbScheduled.wallet_transactions
      ∧ ∃ db₂ d fc, endAction dbLive "s1" 1800 = .ok (db₂, d, fc)
        ∧ db₂.wallet_transactions = dbLive.wallet_transactions ++
            [⟨"alice", -fc, "payment", "Session Cost"⟩,
             ⟨"bob", tutorPayOf sessLive 0 1800, "earning",
              "Session Earnings"⟩] := by
  have h1 := (c8_transaction_log_rows dbScheduled "s1" 0).1
  have h2 := (c8_transaction_log_rows dbLive "s1" 1800).2
  obtain ⟨db₁, c, hs1⟩ :
      ∃ a b, startAction dbScheduled "s1" 0 = .ok (a, b) := ⟨_, _, rfl⟩
  obtain ⟨db₂, d, fc, hs2⟩ :
      ∃ a b c, endAction dbLive "s1" 1800 = .ok (a, b, c) := ⟨_, _, _, rfl⟩
  exact ⟨db₁, c, hs1, h1 db₁ c hs1,
         db₂, d, fc, hs2, h2 db₂ d fc sessLive 0 rfl rfl hs2⟩

end Macronata
